import Mathlib

/-!
Verification of the reliable-UDP file-conversion protocol implemented in
`entrega2_UDP/client_udp.py` and `entrega2_UDP/server_udp.py`.

Bytes are modelled as natural numbers (every value handled by the code is
below 256 when it comes off the wire), byte strings as `List Nat`, and the
per-session socket interaction as an explicit list of receive events
(datagram arrivals and timeout expiries).
-/

namespace UDPConv

/-- Maximum data bytes per packet (`CHUNK_SIZE` in both endpoints). -/
def CHUNK_SIZE : Nat := 1024

/-- Header size: kind (1) + packet id (4) + total packets (4). -/
def HEADER_SIZE : Nat := 9

/-- Default retransmission budget (`MAX_RETRIES` in both endpoints). -/
def MAX_RETRIES : Nat := 5

def PKT_COMMAND : Nat := 0x01
def PKT_METADATA : Nat := 0x02
def PKT_DATA : Nat := 0x03
def PKT_HASH : Nat := 0x04
def PKT_ACK : Nat := 0x05
def PKT_NACK : Nat := 0x06
def PKT_OK : Nat := 0x07
def PKT_ERROR : Nat := 0x08
def PKT_COMPLETE : Nat := 0x09

/-- Big-endian 4-byte encoding of an unsigned 32-bit value, as produced by
`struct.pack` with an `I` field (`struct.pack` raises for out-of-range input;
every call site in the source passes a value below `2^32`, where the byte
decomposition below is exact). -/
def be4 (n : Nat) : List Nat :=
  [n / 2 ^ 24 % 256, n / 2 ^ 16 % 256, n / 2 ^ 8 % 256, n % 256]

/-- Big-endian unsigned read of a byte slice (`struct.unpack` on an `I` field). -/
def u32be (b : List Nat) : Nat :=
  b.foldl (fun acc x => acc * 256 + x) 0

/-- Model of `create_packet` (identical in `client_udp.py:81` and `server_udp.py:102`):
9-byte header `kind ++ be4 id ++ be4 total` followed by the raw data. -/
def create_packet (pkt_type packet_id total_packets : Nat) (data : List Nat) : List Nat :=
  pkt_type :: (be4 packet_id ++ (be4 total_packets ++ data))

/-- Model of `parse_packet` (identical in `client_udp.py:90` and `server_udp.py:111`):
inputs shorter than `HEADER_SIZE` yield the all-`None` tuple, modelled as
`none`; otherwise the three header fields and the remaining payload. -/
def parse_packet (packet : List Nat) : Option (Nat × Nat × Nat × List Nat) :=
  if packet.length < HEADER_SIZE then none
  else some (packet.headD 0,
             u32be ((packet.drop 1).take 4),
             u32be ((packet.drop 5).take 4),
             packet.drop HEADER_SIZE)

/-- C8 — decode contract of the packet codec: `parse_packet` fails exactly on
inputs shorter than 9 bytes; on longer inputs it returns the first byte as the
kind, bytes 1..4 and 5..8 as big-endian unsigned 32-bit integers, and every
byte from offset 9 on as the payload, with no constraint on payload length. -/
theorem parse_packet_spec (b : List Nat) :
    (b.length < 9 → parse_packet b = none) ∧
    (9 ≤ b.length →
      parse_packet b = some (b.getD 0 0,
        b.getD 1 0 * 16777216 + b.getD 2 0 * 65536 + b.getD 3 0 * 256 + b.getD 4 0,
        b.getD 5 0 * 16777216 + b.getD 6 0 * 65536 + b.getD 7 0 * 256 + b.getD 8 0,
        b.drop 9)) := by
  constructor
  · intro h
    simp [parse_packet, HEADER_SIZE, h]
  · intro h
    rcases b with _ | ⟨a0, b⟩; · simp at h
    rcases b with _ | ⟨a1, b⟩; · simp at h
    rcases b with _ | ⟨a2, b⟩; · simp at h
    rcases b with _ | ⟨a3, b⟩; · simp at h
    rcases b with _ | ⟨a4, b⟩; · simp at h
    rcases b with _ | ⟨a5, b⟩; · simp at h
    rcases b with _ | ⟨a6, b⟩; · simp at h
    rcases b with _ | ⟨a7, b⟩; · simp at h
    rcases b with _ | ⟨a8, rest⟩; · simp at h
    have hlen : ¬ (a0 :: a1 :: a2 :: a3 :: a4 :: a5 :: a6 :: a7 :: a8 :: rest).length < 9 := by
      simp
    unfold parse_packet
    rw [HEADER_SIZE, if_neg hlen]
    simp [u32be, List.getD]
    constructor <;> ring

/-- Witness for C8: a 2-byte datagram is rejected, an 11-byte datagram decodes
to its header fields and 2-byte payload. -/
theorem parse_packet_spec_witness :
    parse_packet [1, 2] = none ∧
    parse_packet [1, 0, 0, 0, 7, 0, 0, 0, 2, 9, 9] = some (1, 7, 2, [9, 9]) := by
  refine ⟨(parse_packet_spec [1, 2]).1 (by decide), ?_⟩
  have h := (parse_packet_spec [1, 0, 0, 0, 7, 0, 0, 0, 2, 9, 9]).2 (by decide)
  simpa using h

/-- C10 — codec round trip: decoding an encoded packet recovers the kind,
sequence id, total count and payload exactly, for in-range header fields. -/
theorem create_parse_roundtrip (t id total : Nat) (p : List Nat)
    (ht : t < 256) (hid : id < 2 ^ 32) (htot : total < 2 ^ 32) :
    parse_packet (create_packet t id total p) = some (t, id, total, p) := by
  have hlen : ¬ (create_packet t id total p).length < 9 := by
    simp [create_packet, be4]
  simp only [parse_packet, HEADER_SIZE, hlen, if_false, create_packet, be4]
  simp only [List.drop, List.take, List.cons_append, List.nil_append, List.headD]
  refine congrArg some ?_
  have h1 : u32be [id / 2 ^ 24 % 256, id / 2 ^ 16 % 256, id / 2 ^ 8 % 256, id % 256] = id := by
    simp [u32be]; omega
  have h2 : u32be [total / 2 ^ 24 % 256, total / 2 ^ 16 % 256, total / 2 ^ 8 % 256, total % 256] = total := by
    simp [u32be]; omega
  simp_all [List.drop_append_eq_append_drop]

/-- Witness for C10 at a concrete packet. -/
theorem create_parse_roundtrip_witness :
    parse_packet (create_packet 3 70000 2 [1, 2, 3]) = some (3, 70000, 2, [1, 2, 3]) :=
  create_parse_roundtrip 3 70000 2 [1, 2, 3] (by norm_num) (by norm_num) (by norm_num)

/-- Fragment `i` of a file: `file_data[i*CHUNK_SIZE : min((i+1)*CHUNK_SIZE, len)]`
(`client_udp.py:250-253`, identically `server_udp.py:358-361`). -/
def fragment (file_data : List Nat) (i : Nat) : List Nat :=
  (file_data.drop (i * CHUNK_SIZE)).take CHUNK_SIZE

/-- Total fragment count `(file_size + CHUNK_SIZE - 1) // CHUNK_SIZE`
(`client_udp.py:183`, `server_udp.py:345`). -/
def total_packets_of (n : Nat) : Nat := (n + CHUNK_SIZE - 1) / CHUNK_SIZE

/-- The list of all fragments of a file, in sequence-id order. -/
def fragments (file_data : List Nat) : List (List Nat) :=
  (List.range (total_packets_of file_data.length)).map (fragment file_data)

/-- Assignment `received_packets[packet_id] = data` on a Python dict, modelled as an
association list: an existing key is overwritten in place, a new key is appended. -/
def dict_insert (m : List (Nat × List Nat)) (k : Nat) (v : List Nat) : List (Nat × List Nat) :=
  if m.any (fun kv => kv.1 == k) then m.map (fun kv => if kv.1 == k then (k, v) else kv)
  else m ++ [(k, v)]

/-- Lookup `received_packets[i]` guarded by `i in received_packets`. -/
def dict_get (m : List (Nat × List Nat)) (k : Nat) : Option (List Nat) :=
  (m.find? (fun kv => kv.1 == k)).map (fun kv => kv.2)

/-- File reconstruction (`server_udp.py:288-292`, `client_udp.py:324-328`): concatenate
`received_packets[i]` for `i` in `range(total)`, skipping missing ids. The truncation
to the exact size (line 295 and 330) is applied by the callers below. -/
def reassemble (received_packets : List (Nat × List Nat)) (total : Nat) : List Nat :=
  (List.range total).foldl
    (fun acc i =>
      match dict_get received_packets i with
      | some d => acc ++ d
      | none => acc) []

/-- The fragment dictionary a receiver holds after every fragment of `P` has been
delivered: sequence id `i` maps to the `i`-th slice of `P`. -/
def frag_dict (P : List Nat) : List (Nat × List Nat) :=
  (List.range (total_packets_of P.length)).map (fun i => (i, fragment P i))

lemma foldl_append_flatten (g : Nat → List Nat) :
    ∀ (l : List Nat) (acc : List Nat),
      l.foldl (fun a i => a ++ g i) acc = acc ++ (l.map g).flatten
  | [], acc => by simp
  | i :: is, acc => by
    simp [List.foldl_cons, foldl_append_flatten g is, List.append_assoc]

lemma find?_range_map (f : Nat → List Nat) (n : Nat) :
    ∀ i, i < n →
      ((List.range n).map (fun j => (j, f j))).find? (fun kv => kv.1 == i) = some (i, f i) := by
  induction n with
  | zero => intro i hi; exact absurd hi (Nat.not_lt_zero i)
  | succ n ih =>
    intro i hi
    rw [List.range_succ, List.map_append, List.find?_append]
    rcases Nat.lt_or_ge i n with h | h
    · rw [ih i h]; rfl
    · have hin : i = n := by omega
      subst hin
      have hnone : ((List.range i).map (fun j => (j, f j))).find? (fun kv => kv.1 == i) = none := by
        apply List.find?_eq_none.2
        intro x hx
        simp only [List.mem_map, List.mem_range] at hx
        obtain ⟨j, hj, rfl⟩ := hx
        simp
        omega
      rw [hnone]
      simp [List.find?]

lemma dict_get_frag_dict (P : List Nat) (i : Nat) (hi : i < total_packets_of P.length) :
    dict_get (frag_dict P) i = some (fragment P i) := by
  unfold dict_get frag_dict
  rw [find?_range_map (fragment P) _ i hi]
  rfl

lemma range_chunks_flatten (l : List Nat) :
    ∀ c, ((List.range c).map (fragment l)).flatten = l.take (c * CHUNK_SIZE) := by
  intro c
  induction c with
  | zero => simp
  | succ c ih =>
    rw [List.range_succ, List.map_append, List.flatten_append, ih]
    simp only [fragment, Nat.succ_mul, List.take_add, List.map_cons, List.map_nil,
      List.flatten_cons, List.flatten_nil, List.append_nil]

lemma length_le_total_mul (n : Nat) : n ≤ total_packets_of n * CHUNK_SIZE := by
  simp only [total_packets_of, CHUNK_SIZE]
  omega

/-- C2 — fragmentation round trip: for every byte sequence `P` and `F = CHUNK_SIZE =
1024`, the sender produces `ceil(len(P)/F)` fragments of size at most `F`, and the
receiver's reassembly (concatenation in sequence-id order over the fragment map,
truncated to `len(P)`) reproduces `P` exactly. -/
theorem fragmentation_roundtrip (P : List Nat) :
    (fragments P).length = total_packets_of P.length ∧
    (∀ f ∈ fragments P, f.length ≤ CHUNK_SIZE) ∧
    (reassemble (frag_dict P) (total_packets_of P.length)).take P.length = P := by
  refine ⟨by simp [fragments], ?_, ?_⟩
  · intro f hf
    simp only [fragments, List.mem_map] at hf
    obtain ⟨i, hi, rfl⟩ := hf
    simp [fragment]
  · have h1 : reassemble (frag_dict P) (total_packets_of P.length)
        = ((List.range (total_packets_of P.length)).map (fragment P)).flatten := by
      unfold reassemble
      rw [List.foldl_ext _ (fun a i => a ++ fragment P i) []
        (fun a i hi => by rw [dict_get_frag_dict P i (List.mem_range.1 hi)])]
      rw [foldl_append_flatten]
      simp
    rw [h1, range_chunks_flatten]
    rw [List.take_take, Nat.min_eq_left (length_le_total_mul P.length), List.take_length]

/-- One observable event on a session socket while a peer is waiting: either a datagram
arrives (`pkt raw`) or the configured receive timeout expires (`timeout`). An event
script lists, in order, every event delivered to the waiting code. -/
inductive RecvEvent where
  | pkt (raw : List Nat)
  | timeout
deriving DecidableEq

/-- Test `pkt_type == PKT_ACK and ack_id == expected_ack_id` on a raw datagram
(`client_udp.py:122`, `server_udp.py:143`); a datagram that fails to decode has
`pkt_type = None` and never passes. -/
def is_ack_for (expected : Nat) (raw : List Nat) : Bool :=
  match parse_packet raw with
  | some (t, id, _, _) => t == PKT_ACK && id == expected
  | none => false

/-- Test `pkt_type == PKT_ERROR` on a raw datagram (`client_udp.py:124`). -/
def is_error_packet (raw : List Nat) : Bool :=
  match parse_packet raw with
  | some (t, _, _, _) => t == PKT_ERROR
  | none => false

/-- Inner wait loop of the client's `send_with_ack` (`client_udp.py:117-127`): consume
incoming datagrams until the matching Ack (`some true`), an Error (`some false`), or
the receive timeout (`none`, leading to a retransmission); anything else is ignored. -/
def wait_for_ack_cli (expected : Nat) : List RecvEvent → Option Bool × List RecvEvent
  | [] => (none, [])
  | RecvEvent.timeout :: rest => (none, rest)
  | RecvEvent.pkt raw :: rest =>
    if is_ack_for expected raw then (some true, rest)
    else if is_error_packet raw then (some false, rest)
    else wait_for_ack_cli expected rest

/-- Inner wait loop of the server's `send_with_ack` (`server_udp.py:138-147`): identical
to the client's except that it has no Error branch — an Error datagram is ignored like
any other non-matching packet. -/
def wait_for_ack_srv (expected : Nat) : List RecvEvent → Bool × List RecvEvent
  | [] => (false, [])
  | RecvEvent.timeout :: rest => (false, rest)
  | RecvEvent.pkt raw :: rest =>
    if is_ack_for expected raw then (true, rest)
    else wait_for_ack_srv expected rest

/-- Model of `send_with_ack` of `client_udp.py:105-132`, returning the result together with the
number of transmissions of the packet. The first component of each recursive step is
one `sock.sendto` of the packet, so the transmission count increments per attempt. -/
def send_with_ack_cli (expected : Nat) : Nat → List RecvEvent → Bool × Nat
  | 0, _ => (false, 0)
  | n + 1, events =>
    match wait_for_ack_cli expected events with
    | (some true, _) => (true, 1)
    | (some false, _) => (false, 1)
    | (none, rest) =>
      let r := send_with_ack_cli expected n rest
      (r.1, r.2 + 1)

/-- Model of `send_with_ack` of `server_udp.py:126-152`, with transmission count. -/
def send_with_ack_srv (expected : Nat) : Nat → List RecvEvent → Bool × Nat
  | 0, _ => (false, 0)
  | n + 1, events =>
    match wait_for_ack_srv expected events with
    | (true, _) => (true, 1)
    | (false, rest) =>
      let r := send_with_ack_srv expected n rest
      (r.1, r.2 + 1)

/-- An event the client's wait loop ignores: a datagram that is neither the expected
Ack nor an Error. -/
def ignored_event (expected : Nat) : RecvEvent → Bool
  | RecvEvent.pkt raw => !is_ack_for expected raw && !is_error_packet raw
  | RecvEvent.timeout => false

lemma wait_cli_skips (expected : Nat) :
    ∀ (pre evs : List RecvEvent), pre.all (ignored_event expected) = true →
      wait_for_ack_cli expected (pre ++ evs) = wait_for_ack_cli expected evs := by
  intro pre
  induction pre with
  | nil => intro evs _; rfl
  | cons ev pre ih =>
    intro evs hall
    simp only [List.all_cons, Bool.and_eq_true] at hall
    obtain ⟨hev, hall⟩ := hall
    cases ev with
    | timeout => simp [ignored_event] at hev
    | pkt raw =>
      simp only [ignored_event, Bool.and_eq_true, Bool.not_eq_true'] at hev
      simp only [List.cons_append, wait_for_ack_cli, hev.1, hev.2, if_false]
      exact ih evs hall

lemma wait_srv_skips (expected : Nat) :
    ∀ (pre evs : List RecvEvent), pre.all (ignored_event expected) = true →
      wait_for_ack_srv expected (pre ++ evs) = wait_for_ack_srv expected evs := by
  intro pre
  induction pre with
  | nil => intro evs _; rfl
  | cons ev pre ih =>
    intro evs hall
    simp only [List.all_cons, Bool.and_eq_true] at hall
    obtain ⟨hev, hall⟩ := hall
    cases ev with
    | timeout => simp [ignored_event] at hev
    | pkt raw =>
      simp only [ignored_event, Bool.and_eq_true, Bool.not_eq_true'] at hev
      simp only [List.cons_append, wait_for_ack_srv, hev.1, if_false]
      exact ih evs hall

lemma error_not_ack (expected : Nat) (raw : List Nat) (h : is_error_packet raw = true) :
    is_ack_for expected raw = false := by
  unfold is_error_packet at h
  unfold is_ack_for
  cases hp : parse_packet raw with
  | none => rfl
  | some v =>
    obtain ⟨t, id, tot, d⟩ := v
    rw [hp] at h
    simp only at h
    simp only
    have ht : t = PKT_ERROR := by simpa using h
    subst ht
    simp [PKT_ERROR, PKT_ACK]

/-- C3 (amended) — an Error packet received while the client's `send_with_ack` waits
makes the call fail immediately, with no further transmission of the packet (total
transmissions stay at 1 regardless of the remaining retry budget); packets that are
neither the expected Ack nor an Error are skipped. The server's `send_with_ack`, in
contrast, ignores an Error packet like any other non-matching datagram and succeeds
on a later matching Ack within the same attempt. -/
theorem send_with_ack_error_behavior (expected n : Nat) (pre rest : List RecvEvent)
    (err ack : List Nat)
    (hpre : pre.all (ignored_event expected) = true)
    (herr : is_error_packet err = true)
    (hack : is_ack_for expected ack = true) :
    send_with_ack_cli expected (n + 1) (pre ++ RecvEvent.pkt err :: rest) = (false, 1) ∧
    send_with_ack_srv expected (n + 1)
      (pre ++ RecvEvent.pkt err :: RecvEvent.pkt ack :: rest) = (true, 1) := by
  constructor
  · have hw : wait_for_ack_cli expected (pre ++ RecvEvent.pkt err :: rest) = (some false, rest) := by
      rw [wait_cli_skips expected pre _ hpre]
      simp [wait_for_ack_cli, error_not_ack expected err herr, herr]
    simp [send_with_ack_cli, hw]
  · have hw : wait_for_ack_srv expected (pre ++ RecvEvent.pkt err :: RecvEvent.pkt ack :: rest)
        = (true, rest) := by
      rw [wait_srv_skips expected pre _ hpre]
      simp [wait_for_ack_srv, error_not_ack expected err herr, hack]
    simp [send_with_ack_srv, hw]

/-- Witness for C3 at a concrete script: one ignored Data packet, then an Error; the
client fails after a single transmission, the server sails past the Error to the Ack. -/
theorem send_with_ack_error_behavior_witness :
    send_with_ack_cli 7 5
      [RecvEvent.pkt (create_packet PKT_DATA 0 0 []),
       RecvEvent.pkt (create_packet PKT_ERROR 0 0 [1])] = (false, 1) ∧
    send_with_ack_srv 7 5
      [RecvEvent.pkt (create_packet PKT_DATA 0 0 []),
       RecvEvent.pkt (create_packet PKT_ERROR 0 0 [1]),
       RecvEvent.pkt (create_packet PKT_ACK 7 0 [])] = (true, 1) :=
  send_with_ack_error_behavior 7 4 [RecvEvent.pkt (create_packet PKT_DATA 0 0 [])] []
    (create_packet PKT_ERROR 0 0 [1]) (create_packet PKT_ACK 7 0 [])
    (by decide) (by decide) (by decide)

/-- Counterexample for C3 as stated: the claim quantifies over every call to
`send_and_confirm`, but the server's `send_with_ack` does not fail on an Error packet —
with an Error followed by the matching Ack in the very first wait, it returns success
after one transmission instead of failing immediately. -/
theorem send_with_ack_srv_ignores_error_cex :
    send_with_ack_srv 7 5
      [RecvEvent.pkt (create_packet PKT_ERROR 0 0 []),
       RecvEvent.pkt (create_packet PKT_ACK 7 0 [])] = (true, 1) := by decide

lemma send_cli_success_count (expected : Nat) (ack : List Nat)
    (hack : is_ack_for expected ack = true) :
    ∀ k m, k < m →
      send_with_ack_cli expected m (List.replicate k RecvEvent.timeout ++ [RecvEvent.pkt ack])
        = (true, k + 1) := by
  intro k
  induction k with
  | zero =>
    intro m hm
    obtain ⟨m', rfl⟩ := Nat.exists_eq_succ_of_ne_zero (Nat.pos_iff_ne_zero.1 hm)
    simp [send_with_ack_cli, wait_for_ack_cli, hack]
  | succ k ih =>
    intro m hm
    obtain ⟨m', rfl⟩ := Nat.exists_eq_succ_of_ne_zero (by omega : m ≠ 0)
    have hk : k < m' := by omega
    simp only [List.replicate_succ, List.cons_append, send_with_ack_cli, wait_for_ack_cli,
      List.append_eq]
    rw [ih m' hk]

lemma send_srv_success_count (expected : Nat) (ack : List Nat)
    (hack : is_ack_for expected ack = true) :
    ∀ k m, k < m →
      send_with_ack_srv expected m (List.replicate k RecvEvent.timeout ++ [RecvEvent.pkt ack])
        = (true, k + 1) := by
  intro k
  induction k with
  | zero =>
    intro m hm
    obtain ⟨m', rfl⟩ := Nat.exists_eq_succ_of_ne_zero (Nat.pos_iff_ne_zero.1 hm)
    simp [send_with_ack_srv, wait_for_ack_srv, hack]
  | succ k ih =>
    intro m hm
    obtain ⟨m', rfl⟩ := Nat.exists_eq_succ_of_ne_zero (by omega : m ≠ 0)
    have hk : k < m' := by omega
    simp only [List.replicate_succ, List.cons_append, send_with_ack_srv, wait_for_ack_srv,
      List.append_eq]
    rw [ih m' hk]

lemma send_cli_exhaust_count (expected : Nat) :
    ∀ m, send_with_ack_cli expected m (List.replicate m RecvEvent.timeout) = (false, m) := by
  intro m
  induction m with
  | zero => rfl
  | succ m ih =>
    simp only [List.replicate_succ, send_with_ack_cli, wait_for_ack_cli]
    rw [ih]

lemma send_srv_exhaust_count (expected : Nat) :
    ∀ m, send_with_ack_srv expected m (List.replicate m RecvEvent.timeout) = (false, m) := by
  intro m
  induction m with
  | zero => rfl
  | succ m ih =>
    simp only [List.replicate_succ, send_with_ack_srv, wait_for_ack_srv]
    rw [ih]

/-- C4 — retry behaviour of `send_with_ack` (both endpoints): if the first `k <
max_retries` attempts time out without an Ack and the `(k+1)`-th attempt receives the
matching Ack, the call succeeds after exactly `k+1` transmissions; if every attempt
times out, it fails after exactly `max_retries` transmissions. -/
theorem send_with_ack_retry_count (expected k m : Nat) (ack : List Nat)
    (hk : k < m) (hack : is_ack_for expected ack = true) :
    send_with_ack_cli expected m (List.replicate k RecvEvent.timeout ++ [RecvEvent.pkt ack])
      = (true, k + 1) ∧
    send_with_ack_srv expected m (List.replicate k RecvEvent.timeout ++ [RecvEvent.pkt ack])
      = (true, k + 1) ∧
    send_with_ack_cli expected m (List.replicate m RecvEvent.timeout) = (false, m) ∧
    send_with_ack_srv expected m (List.replicate m RecvEvent.timeout) = (false, m) :=
  ⟨send_cli_success_count expected ack hack k m hk,
   send_srv_success_count expected ack hack k m hk,
   send_cli_exhaust_count expected m,
   send_srv_exhaust_count expected m⟩

/-- Witness for C4 at `k = 2`, `max_retries = MAX_RETRIES = 5`. -/
theorem send_with_ack_retry_count_witness :
    send_with_ack_cli 7 MAX_RETRIES
      (List.replicate 2 RecvEvent.timeout ++ [RecvEvent.pkt (create_packet PKT_ACK 7 0 [])])
      = (true, 3) ∧
    send_with_ack_srv 7 MAX_RETRIES
      (List.replicate 2 RecvEvent.timeout ++ [RecvEvent.pkt (create_packet PKT_ACK 7 0 [])])
      = (true, 3) ∧
    send_with_ack_cli 7 MAX_RETRIES (List.replicate MAX_RETRIES RecvEvent.timeout)
      = (false, MAX_RETRIES) ∧
    send_with_ack_srv 7 MAX_RETRIES (List.replicate MAX_RETRIES RecvEvent.timeout)
      = (false, MAX_RETRIES) :=
  send_with_ack_retry_count 7 2 MAX_RETRIES (create_packet PKT_ACK 7 0 [])
    (by decide) (by decide)

/-- Observable outcome of one `receive_with_ack` call: a returned header tuple together
with the Ack datagram sent back, a timeout (the all-`None` return), or an exception
escaping the function. -/
inductive RecvOutcome where
  | result (pkt_type packet_id total_packets : Nat) (data : List Nat) (ack : List Nat)
  | timed_out
  | raised
deriving DecidableEq

/-- Model of `receive_with_ack` (`client_udp.py:135-156`; `server_udp.py:155-178` is identical
for its `expected_type=None` call sites). On a decodable datagram it builds and sends
`create_packet(PKT_ACK, packet_id, 0)` and returns the parsed tuple. The guard
`if packet is None` tests the raw datagram — which is never `None` — instead of the
parsed `pkt_type`, so a datagram shorter than the header reaches
`create_packet(PKT_ACK, None, 0)`, where `struct.pack` raises `struct.error` out of
the function (only `socket.timeout` is caught); modelled as `raised`. -/
def receive_with_ack (ev : RecvEvent) : RecvOutcome :=
  match ev with
  | RecvEvent.timeout => RecvOutcome.timed_out
  | RecvEvent.pkt raw =>
    match parse_packet raw with
    | some (t, id, total, data) => RecvOutcome.result t id total data (create_packet PKT_ACK id 0 [])
    | none => RecvOutcome.raised

/-- C5 — evaluation at the failing input: a 3-byte datagram fails to decode, and
instead of returning no packet and sending no Ack, `receive_with_ack` raises a
`struct.error` past its boundary (the dead `if packet is None` guard never fires).
A well-formed datagram is acknowledged unconditionally, echoing its sequence id,
and a timeout yields no packet and no Ack, as the claim states. -/
theorem receive_with_ack_decode_failure :
    receive_with_ack (RecvEvent.pkt [97, 98, 99]) = RecvOutcome.raised ∧
    receive_with_ack (RecvEvent.pkt (create_packet PKT_ERROR 3 0 [1, 2]))
      = RecvOutcome.result PKT_ERROR 3 0 [1, 2] (create_packet PKT_ACK 3 0 []) ∧
    receive_with_ack RecvEvent.timeout = RecvOutcome.timed_out := by
  refine ⟨?_, ?_, ?_⟩ <;> decide

/-- Data-receive loop of `handle_client` (`server_udp.py:259-275`; the client-side loop
at `client_udp.py:301-312` has the same structure): while fewer than `total` entries
are stored, receive an event; a packet whose kind is `PKT_DATA` is stored under its
sequence id — with no range check on the id — and acknowledged; anything else,
including a timeout, is ignored. An exhausted event script while still below `total`
means the loop blocks forever, modelled as `none`. -/
def recv_data_loop (total : Nat) : List RecvEvent → List (Nat × List Nat) → Option (List (Nat × List Nat))
  | [], received => if total ≤ received.length then some received else none
  | ev :: rest, received =>
    if total ≤ received.length then some received
    else
      match ev with
      | RecvEvent.timeout => recv_data_loop total rest received
      | RecvEvent.pkt raw =>
        match parse_packet raw with
        | some (t, id, _, d) =>
          if t = PKT_DATA then recv_data_loop total rest (dict_insert received id d)
          else recv_data_loop total rest received
        | none => recv_data_loop total rest received

/-- Sequence ids of the Data packets occurring in an event script. -/
def data_ids : List RecvEvent → List Nat
  | [] => []
  | RecvEvent.timeout :: rest => data_ids rest
  | RecvEvent.pkt raw :: rest =>
    match parse_packet raw with
    | some (t, id, _, _) => if t = PKT_DATA then id :: data_ids rest else data_ids rest
    | none => data_ids rest

lemma dict_insert_length (m : List (Nat × List Nat)) (k : Nat) (v : List Nat) :
    (dict_insert m k v).length ≤ m.length + 1 := by
  unfold dict_insert
  split
  · simp
  · simp

lemma dict_insert_mem (m : List (Nat × List Nat)) (k : Nat) (v : List Nat) (kv : Nat × List Nat)
    (h : kv ∈ dict_insert m k v) : kv.1 = k ∨ ∃ kv0 ∈ m, kv0.1 = kv.1 := by
  unfold dict_insert at h
  split at h
  · simp only [List.mem_map] at h
    obtain ⟨kv0, hkv0, heq⟩ := h
    by_cases hk : kv0.1 == k
    · rw [if_pos hk] at heq
      left; rw [← heq]
    · rw [if_neg hk] at heq
      right; exact ⟨kv0, hkv0, by rw [heq]⟩
  · simp only [List.mem_append, List.mem_singleton] at h
    rcases h with h | h
    · right; exact ⟨kv, h, rfl⟩
    · left; rw [h]

lemma dict_insert_of_contains (m : List (Nat × List Nat)) (k : Nat) (v : List Nat)
    (hc : m.any (fun kv => kv.1 == k) = true) :
    dict_insert m k v = m.map (fun kv => if kv.1 == k then (k, v) else kv) := by
  unfold dict_insert
  rw [if_pos hc]

lemma dict_insert_of_not_contains (m : List (Nat × List Nat)) (k : Nat) (v : List Nat)
    (hc : ¬ m.any (fun kv => kv.1 == k) = true) :
    dict_insert m k v = m ++ [(k, v)] := by
  unfold dict_insert
  rw [if_neg hc]

lemma dict_insert_idem (m : List (Nat × List Nat)) (k : Nat) (v : List Nat) :
    dict_insert (dict_insert m k v) k v = dict_insert m k v := by
  by_cases hc : m.any (fun kv => kv.1 == k) = true
  · have h1 := dict_insert_of_contains m k v hc
    have hc2 : (dict_insert m k v).any (fun kv => kv.1 == k) = true := by
      rw [List.any_eq_true] at hc ⊢
      obtain ⟨kv0, hkv0, hk⟩ := hc
      refine ⟨(k, v), ?_, by simp⟩
      rw [h1]
      exact List.mem_map.2 ⟨kv0, hkv0, by rw [if_pos hk]⟩
    rw [dict_insert_of_contains _ k v hc2, h1, List.map_map]
    apply List.map_congr_left
    intro kv _
    by_cases hk : kv.1 = k <;> simp [hk]
  · have h1 := dict_insert_of_not_contains m k v hc
    have hc2 : (dict_insert m k v).any (fun kv => kv.1 == k) = true := by
      rw [h1, List.any_eq_true]
      exact ⟨(k, v), by simp, by simp⟩
    rw [dict_insert_of_contains _ k v hc2, h1, List.map_append]
    have hm : m.map (fun kv => if kv.1 == k then (k, v) else kv) = m := by
      conv_rhs => rw [← List.map_id m]
      apply List.map_congr_left
      intro kv hkv
      have hk : ¬ (kv.1 == k) = true := by
        intro hk
        exact hc (List.any_eq_true.2 ⟨kv, hkv, hk⟩)
      simp [hk]
    rw [hm]
    simp

lemma recv_loop_timeout_eq (total : Nat) (rest : List RecvEvent) (received : List (Nat × List Nat)) :
    recv_data_loop total (RecvEvent.timeout :: rest) received =
      if total ≤ received.length then some received
      else recv_data_loop total rest received := rfl

lemma recv_loop_pkt_eq (total : Nat) (raw : List Nat) (rest : List RecvEvent)
    (received : List (Nat × List Nat)) :
    recv_data_loop total (RecvEvent.pkt raw :: rest) received =
      if total ≤ received.length then some received
      else
        match parse_packet raw with
        | some (t, id, _, d) =>
          if t = PKT_DATA then recv_data_loop total rest (dict_insert received id d)
          else recv_data_loop total rest received
        | none => recv_data_loop total rest received := rfl

lemma recv_loop_pkt_some_eq (total : Nat) (raw : List Nat) (rest : List RecvEvent)
    (received : List (Nat × List Nat)) (t id tot : Nat) (d : List Nat)
    (hp : parse_packet raw = some (t, id, tot, d)) (hfull : ¬ total ≤ received.length) :
    recv_data_loop total (RecvEvent.pkt raw :: rest) received =
      if t = PKT_DATA then recv_data_loop total rest (dict_insert received id d)
      else recv_data_loop total rest received := by
  rw [recv_loop_pkt_eq, if_neg hfull, hp]

lemma recv_loop_pkt_none_eq (total : Nat) (raw : List Nat) (rest : List RecvEvent)
    (received : List (Nat × List Nat))
    (hp : parse_packet raw = none) (hfull : ¬ total ≤ received.length) :
    recv_data_loop total (RecvEvent.pkt raw :: rest) received =
      recv_data_loop total rest received := by
  rw [recv_loop_pkt_eq, if_neg hfull, hp]

lemma recv_data_loop_aux (total : Nat) :
    ∀ (events : List RecvEvent) (m0 m : List (Nat × List Nat)),
      m0.length ≤ total → recv_data_loop total events m0 = some m →
      m.length ≤ total ∧
      ∀ kv ∈ m, (∃ kv0 ∈ m0, kv0.1 = kv.1) ∨ kv.1 ∈ data_ids events := by
  intro events
  induction events with
  | nil =>
    intro m0 m h0 hrun
    unfold recv_data_loop at hrun
    split at hrun
    · obtain rfl : m0 = m := by injection hrun
      exact ⟨h0, fun kv hkv => Or.inl ⟨kv, hkv, rfl⟩⟩
    · exact absurd hrun (by simp)
  | cons ev rest ih =>
    intro m0 m h0 hrun
    by_cases hfull : total ≤ m0.length
    · have hm : recv_data_loop total (ev :: rest) m0 = some m0 := by
        cases ev
        · rw [recv_loop_pkt_eq, if_pos hfull]
        · rw [recv_loop_timeout_eq, if_pos hfull]
      rw [hm] at hrun
      obtain rfl : m0 = m := by injection hrun
      exact ⟨h0, fun kv hkv => Or.inl ⟨kv, hkv, rfl⟩⟩
    · cases ev with
      | timeout =>
        rw [recv_loop_timeout_eq, if_neg hfull] at hrun
        obtain ⟨h1, h2⟩ := ih m0 m h0 hrun
        refine ⟨h1, fun kv hkv => ?_⟩
        rcases h2 kv hkv with h | h
        · exact Or.inl h
        · exact Or.inr (by simpa [data_ids] using h)
      | pkt raw =>
        cases hp : parse_packet raw with
        | none =>
          rw [recv_loop_pkt_none_eq total raw rest m0 hp hfull] at hrun
          obtain ⟨h1, h2⟩ := ih m0 m h0 hrun
          refine ⟨h1, fun kv hkv => ?_⟩
          rcases h2 kv hkv with h | h
          · exact Or.inl h
          · exact Or.inr (by simpa [data_ids, hp] using h)
        | some v =>
          obtain ⟨t, id, tot, d⟩ := v
          rw [recv_loop_pkt_some_eq total raw rest m0 t id tot d hp hfull] at hrun
          by_cases ht : t = PKT_DATA
          · rw [if_pos ht] at hrun
            have hlen : (dict_insert m0 id d).length ≤ total := by
              have := dict_insert_length m0 id d
              omega
            obtain ⟨h1, h2⟩ := ih (dict_insert m0 id d) m hlen hrun
            refine ⟨h1, fun kv hkv => ?_⟩
            rcases h2 kv hkv with ⟨kv0, hkv0, hkeq⟩ | h
            · rcases dict_insert_mem m0 id d kv0 hkv0 with h | ⟨kv1, hkv1, hkeq1⟩
              · exact Or.inr (by simp [data_ids, hp, ht, ← hkeq, h])
              · exact Or.inl ⟨kv1, hkv1, by rw [hkeq1, hkeq]⟩
            · exact Or.inr (by simp [data_ids, hp, ht, h])
          · rw [if_neg ht] at hrun
            obtain ⟨h1, h2⟩ := ih m0 m h0 hrun
            refine ⟨h1, fun kv hkv => ?_⟩
            rcases h2 kv hkv with h | h
            · exact Or.inl h
            · exact Or.inr (by simpa [data_ids, hp, ht] using h)

/-- C7 (amended) — invariant of the data-receive loop: when the loop terminates, the
fragment map holds at most `fragment_count` entries; every key is the sequence id of
some received Data packet (the code performs no range check, so ids outside
`[0, fragment_count)` are stored like any others); and re-storing a binding already
present is a no-op (duplicates overwrite idempotently). -/
theorem recv_data_loop_invariant (total : Nat) (events : List RecvEvent)
    (m : List (Nat × List Nat)) (k : Nat) (v : List Nat)
    (h : recv_data_loop total events [] = some m) :
    m.length ≤ total ∧
    (∀ kv ∈ m, kv.1 ∈ data_ids events) ∧
    dict_insert (dict_insert m k v) k v = dict_insert m k v := by
  obtain ⟨h1, h2⟩ := recv_data_loop_aux total events [] m (by simp) h
  refine ⟨h1, fun kv hkv => ?_, dict_insert_idem m k v⟩
  rcases h2 kv hkv with ⟨kv0, hkv0, _⟩ | h
  · exact absurd hkv0 (List.not_mem_nil kv0)
  · exact h

/-- Witness for C7: a script delivering Data ids 5 and 0 against `fragment_count = 2`. -/
theorem recv_data_loop_invariant_witness :
    recv_data_loop 2
      [RecvEvent.pkt (create_packet PKT_DATA 5 2 [1]), RecvEvent.timeout,
       RecvEvent.pkt (create_packet PKT_DATA 0 2 [2])] []
      = some [(5, [1]), (0, [2])] ∧
    ([(5, [1]), (0, [2])] : List (Nat × List Nat)).length ≤ 2 ∧
    (∀ kv ∈ ([(5, [1]), (0, [2])] : List (Nat × List Nat)),
      kv.1 ∈ data_ids
        [RecvEvent.pkt (create_packet PKT_DATA 5 2 [1]), RecvEvent.timeout,
         RecvEvent.pkt (create_packet PKT_DATA 0 2 [2])]) ∧
    dict_insert (dict_insert [(5, [1]), (0, [2])] 5 [9]) 5 [9]
      = dict_insert [(5, [1]), (0, [2])] 5 [9] := by
  have h : recv_data_loop 2
      [RecvEvent.pkt (create_packet PKT_DATA 5 2 [1]), RecvEvent.timeout,
       RecvEvent.pkt (create_packet PKT_DATA 0 2 [2])] []
      = some [(5, [1]), (0, [2])] := by decide
  obtain ⟨h1, h2, h3⟩ := recv_data_loop_invariant 2
    [RecvEvent.pkt (create_packet PKT_DATA 5 2 [1]), RecvEvent.timeout,
     RecvEvent.pkt (create_packet PKT_DATA 0 2 [2])] [(5, [1]), (0, [2])] 5 [9] h
  exact ⟨h, h1, h2, h3⟩

/-- Counterexample for C7 as stated: the claim asserts every key of the fragment map
lies in `[0, fragment_count)` because out-of-range ids are ignored; but the loop stores
a Data packet with id 5 under `fragment_count = 2` (and the bogus entry even counts
towards loop termination). -/
theorem recv_data_loop_range_cex :
    recv_data_loop 2
      [RecvEvent.pkt (create_packet PKT_DATA 5 2 [1]),
       RecvEvent.pkt (create_packet PKT_DATA 0 2 [2])] []
      = some [(5, [1]), (0, [2])] ∧
    ¬ (∀ kv ∈ ([(5, [1]), (0, [2])] : List (Nat × List Nat)), kv.1 < 2) := by
  constructor
  · decide
  · decide

/-- Round constants of SHA-256 (FIPS 180-4), as used by `hashlib.sha256`. -/
def sha_k : List Nat :=
  [1116352408, 1899447441, 3049323471, 3921009573, 961987163, 1508970993,
   2453635748, 2870763221, 3624381080, 310598401, 607225278, 1426881987,
   1925078388, 2162078206, 2614888103, 3248222580, 3835390401, 4022224774,
   264347078, 604807628, 770255983, 1249150122, 1555081692, 1996064986,
   2554220882, 2821834349, 2952996808, 3210313671, 3336571891, 3584528711,
   113926993, 338241895, 666307205, 773529912, 1294757372, 1396182291,
   1695183700, 1986661051, 2177026350, 2456956037, 2730485921, 2820302411,
   3259730800, 3345764771, 3516065817, 3600352804, 4094571909, 275423344,
   430227734, 506948616, 659060556, 883997877, 958139571, 1322822218,
   1537002063, 1747873779, 1955562222, 2024104815, 2227730452, 2361852424,
   2428436474, 2756734187, 3204031479, 3329325298]

/-- Initial hash state of SHA-256. -/
def sha_h0 : List Nat :=
  [1779033703, 3144134277, 1013904242, 2773480762,
   1359893119, 2600822924, 528734635, 1541459225]

/-- 32-bit right rotation. -/
def rotr (n x : Nat) : Nat := ((x >>> n) ||| (x <<< (32 - n))) % 2 ^ 32

def bsig0 (x : Nat) : Nat := rotr 2 x ^^^ rotr 13 x ^^^ rotr 22 x
def bsig1 (x : Nat) : Nat := rotr 6 x ^^^ rotr 11 x ^^^ rotr 25 x
def ssig0 (x : Nat) : Nat := rotr 7 x ^^^ rotr 18 x ^^^ (x >>> 3)
def ssig1 (x : Nat) : Nat := rotr 17 x ^^^ rotr 19 x ^^^ (x >>> 10)

/-- Big-endian 8-byte encoding of the bit length in SHA-256 padding. -/
def be8 (n : Nat) : List Nat :=
  [n / 2 ^ 56 % 256, n / 2 ^ 48 % 256, n / 2 ^ 40 % 256, n / 2 ^ 32 % 256,
   n / 2 ^ 24 % 256, n / 2 ^ 16 % 256, n / 2 ^ 8 % 256, n % 256]

/-- SHA-256 message padding: `0x80`, zeros to 56 mod 64, 8-byte bit length. -/
def sha_pad (m : List Nat) : List Nat :=
  m ++ [0x80] ++ List.replicate ((119 - m.length % 64) % 64) 0 ++ be8 (8 * m.length)

/-- The 16 initial 32-bit message-schedule words of a 64-byte block. -/
def words16 (block : List Nat) : List Nat :=
  (List.range 16).map (fun i => u32be ((block.drop (4 * i)).take 4))

/-- Message-schedule extension to 64 words. -/
def sha_schedule (w16 : List Nat) : List Nat :=
  (List.range 48).foldl
    (fun w _ =>
      w ++ [(ssig1 (w.getD (w.length - 2) 0) + w.getD (w.length - 7) 0 +
             ssig0 (w.getD (w.length - 15) 0) + w.getD (w.length - 16) 0) % 2 ^ 32])
    w16

/-- One SHA-256 compression round on the 8-word working state. -/
def sha_round (w : List Nat) (st : List Nat) (i : Nat) : List Nat :=
  match st with
  | [a, b, c, d, e, f, g, hh] =>
    let ch := (e &&& f) ^^^ ((e ^^^ 0xffffffff) &&& g)
    let maj := (a &&& b) ^^^ (a &&& c) ^^^ (b &&& c)
    let t1 := (hh + bsig1 e + ch + sha_k.getD i 0 + w.getD i 0) % 2 ^ 32
    let t2 := (bsig0 a + maj) % 2 ^ 32
    [(t1 + t2) % 2 ^ 32, a, b, c, (d + t1) % 2 ^ 32, e, f, g]
  | st => st

/-- Process one 64-byte block. -/
def sha_block (h : List Nat) (block : List Nat) : List Nat :=
  let w := sha_schedule (words16 block)
  let fin := (List.range 64).foldl (sha_round w) h
  List.zipWith (fun x y => (x + y) % 2 ^ 32) h fin

/-- The eight 32-bit words of the SHA-256 digest of a byte sequence. -/
def sha256_words (m : List Nat) : List Nat :=
  ((sha_pad m).length / 64 |> List.range).foldl
    (fun h i => sha_block h (((sha_pad m).drop (64 * i)).take 64)) sha_h0

/-- Lowercase hex digit, as produced by Python's `hexdigest`. -/
def hex_digit (n : Nat) : Char := if n < 10 then Char.ofNat (48 + n) else Char.ofNat (87 + n)

/-- Eight lowercase hex characters of one 32-bit word. -/
def word_hex (w : Nat) : List Char :=
  (List.range 8).map (fun i => hex_digit (w >>> (28 - 4 * i) % 16))

/-- Model of `calculate_sha256` (`client_udp.py:55`, `server_udp.py:181`):
`hashlib.sha256(data).hexdigest()`, the lowercase-hex SHA-256 digest. -/
def calculate_sha256 (data : List Nat) : String :=
  String.mk (((sha256_words data).map word_hex).flatten)

/-- One packet sent back to the peer, abstracting `sock.sendto` payloads: an Ack
echoing a sequence id, an Error carrying a reason token, an Ok carrying text, or the
handshake Ok carrying the private endpoint's port. -/
inductive Reply where
  | ack (packet_id : Nat)
  | error_reply (reason : String)
  | ok_text (msg : String)
  | ok_port (port : Nat)
deriving DecidableEq

/-- Digest verification step of `handle_client` (`server_udp.py:288-306`; the client
side at `client_udp.py:324-339` is identical except that it sends no Error packet):
reassemble the received fragments in sequence-id order, truncate to `file_size`,
compute the hex digest, and compare it with the received digest using Python string
equality (`!=`). On mismatch one Error packet with reason `hash_invalido` is sent and
the handler returns (`false`); on match the session continues (`true`). -/
def hash_check_step (received_packets : List (Nat × List Nat)) (total file_size : Nat)
    (received_hash : String) : List Reply × Bool :=
  let file_content := (reassemble received_packets total).take file_size
  let calculated_hash := calculate_sha256 file_content
  if calculated_hash ≠ received_hash then ([Reply.error_reply "hash_invalido"], false)
  else ([], true)

/-- Python's `str.lower` restricted to ASCII, used to state case-(in)sensitivity. -/
def char_lower (c : Char) : Char :=
  if 65 ≤ c.toNat ∧ c.toNat ≤ 90 then Char.ofNat (c.toNat + 32) else c

/-- ASCII lower-casing of a string. -/
def ascii_lower (s : String) : String := String.mk (s.toList.map char_lower)

set_option maxRecDepth 1000000 in
/-- Counterexample for C6 as stated: the claim says the digest comparison is
case-insensitive, but the code compares with plain string `!=`. For the empty content,
the received digest below is exactly the uppercase hex of the digest the server
computes (second conjunct), yet the session fails with `hash_invalido` (first
conjunct). -/
theorem hash_check_case_cex :
    hash_check_step [] 0 0 "E3B0C44298FC1C149AFBF4C8996FB92427AE41E4649B934CA495991B7852B855"
      = ([Reply.error_reply "hash_invalido"], false) ∧
    ascii_lower "E3B0C44298FC1C149AFBF4C8996FB92427AE41E4649B934CA495991B7852B855"
      = calculate_sha256 ((reassemble [] 0).take 0) := by
  constructor
  · decide
  · decide

/-- C6 (amended) — the digest comparison is byte-for-byte and case-sensitive (the
received digest must equal the lowercase hex digest exactly): whenever the computed
digest of the truncated reassembled content differs as a string from the received
digest, the session fails fatally with exactly one Error packet carrying reason
`hash_invalido` — no partial acceptance, no retry. -/
theorem hash_check_mismatch_fatal (received_packets : List (Nat × List Nat))
    (total file_size : Nat) (received_hash : String)
    (h : calculate_sha256 ((reassemble received_packets total).take file_size) ≠ received_hash) :
    hash_check_step received_packets total file_size received_hash
      = ([Reply.error_reply "hash_invalido"], false) := by
  unfold hash_check_step
  rw [if_pos h]

set_option maxRecDepth 1000000 in
/-- Witness for C6 at a concrete mismatch. -/
theorem hash_check_mismatch_fatal_witness :
    hash_check_step [] 0 0 "deadbeef" = ([Reply.error_reply "hash_invalido"], false) :=
  hash_check_mismatch_fatal [] 0 0 "deadbeef" (by decide)

/-- Python `str.lstrip(".")` on a format tag: remove all leading dots. -/
def lstrip_dots (s : String) : String :=
  String.mk (s.toList.dropWhile (fun c => c == '.'))

/-- Python `str.strip()`: remove leading and trailing whitespace. -/
def py_strip (s : String) : String :=
  String.mk (((s.toList.dropWhile Char.isWhitespace).reverse.dropWhile Char.isWhitespace).reverse)

/-- Helper for Python `str.split()` with no argument: split on runs of whitespace,
discarding empty words; `acc` holds the current word reversed. -/
def words_aux : List Char → List Char → List (List Char)
  | [], acc => if acc = [] then [] else [acc.reverse]
  | c :: cs, acc =>
    if c.isWhitespace then
      if acc = [] then words_aux cs [] else acc.reverse :: words_aux cs []
    else words_aux cs (c :: acc)

/-- Python `str.split()` with no argument. -/
def py_split (s : String) : List String := (words_aux s.toList []).map String.mk

/-- Python `str.startswith(w)`. -/
def py_startswith (s w : String) : Bool := w.toList.isPrefixOf s.toList

/-- The supported conversion set `SUPPORTED` (`server_udp.py:39-43`). -/
def SUPPORTED : List (String × String) := [("txt", "pdf"), ("jpeg", "png"), ("jpg", "png")]

/-- Command-validation phase of `handle_client` (`server_udp.py:193-229`), at the level
of the decoded command string: a non-Command initial packet yields one Error
(`comando_invalido`) and no Ack; otherwise the command is acknowledged, stripped, and
checked — keyword `CONVERT`, exactly four whitespace-separated tokens, and the
`(src, dst)` pair, after `lstrip(".")` only (the code never lower-cases the tags),
must be in `SUPPORTED`. Each failure sends one Error with its reason token; success
sends the Ok. The Bool records whether validation succeeded. -/
def command_phase (pkt_type packet_id : Nat) (payload : String) : List Reply × Bool :=
  if pkt_type ≠ PKT_COMMAND then ([Reply.error_reply "comando_invalido"], false)
  else
    let command := py_strip payload
    if py_startswith command "CONVERT" = false then
      ([Reply.ack packet_id, Reply.error_reply "comando_invalido"], false)
    else
      let parts := py_split command
      if parts.length ≠ 4 then
        ([Reply.ack packet_id, Reply.error_reply "formato_comando_invalido"], false)
      else
        let src := lstrip_dots (parts.getD 1 "")
        let dst := lstrip_dots (parts.getD 2 "")
        if (src, dst) ∈ SUPPORTED then ([Reply.ack packet_id, Reply.ok_text "OK"], true)
        else ([Reply.ack packet_id, Reply.error_reply "formato_nao_suportado"], false)

/-- Everything the server does for one admitted initial datagram. -/
structure AdmitTrace where
  endpoint_allocated : Bool
  rendezvous_replies : List Reply
  worker_replies : List Reply
  validated : Bool
deriving DecidableEq

/-- Admission of one initial datagram by `main` (`server_udp.py:409-434`) followed by
the worker's command validation (`handle_client`). For every datagram received on the
rendezvous socket — before any validation — `main` binds a fresh ephemeral socket
(`endpoint_allocated := true`), sends `PKT_OK` carrying its port to the client, and
only then starts `handle_client`, whose replies are recorded in `worker_replies`. -/
def rendezvous_dispatch (pkt_type packet_id : Nat) (payload : String) (port : Nat) : AdmitTrace :=
  let hc := command_phase pkt_type packet_id payload
  { endpoint_allocated := true
    rendezvous_replies := [Reply.ok_port port]
    worker_replies := hc.1
    validated := hc.2 }

/-- Counterexample for C1 as stated: for the unsupported command
`"CONVERT txt exe file.txt"` the worker does send the `formato_nao_suportado` Error
(third conjunct), but the claim's assertion that no private transport endpoint is
allocated for the session is false — the dispatcher allocates the ephemeral endpoint
and sends its port in an Ok packet before any validation runs (first two conjuncts). -/
theorem handshake_no_endpoint_cex :
    (rendezvous_dispatch PKT_COMMAND 0 "CONVERT txt exe file.txt" 6000).endpoint_allocated = true ∧
    (rendezvous_dispatch PKT_COMMAND 0 "CONVERT txt exe file.txt" 6000).rendezvous_replies
      = [Reply.ok_port 6000] ∧
    Reply.error_reply "formato_nao_suportado"
      ∈ (rendezvous_dispatch PKT_COMMAND 0 "CONVERT txt exe file.txt" 6000).worker_replies := by
  refine ⟨?_, ?_, ?_⟩ <;> decide

/-- C1 (amended) — for every Command packet whose `(src, dst)` pair, after leading-dot
stripping (matching is case-sensitive; the code never lower-cases), is not in the
supported set, the worker sends exactly one Error packet with reason
`formato_nao_suportado` and validation fails; however the dispatcher has already
allocated a fresh private endpoint and sent its port in an Ok packet — allocation
happens unconditionally for every initial datagram, before validation. -/
theorem handshake_unsupported_pair (packet_id port : Nat) (payload : String)
    (h1 : py_startswith (py_strip payload) "CONVERT" = true)
    (h2 : (py_split (py_strip payload)).length = 4)
    (h3 : (lstrip_dots ((py_split (py_strip payload)).getD 1 ""),
           lstrip_dots ((py_split (py_strip payload)).getD 2 "")) ∉ SUPPORTED) :
    rendezvous_dispatch PKT_COMMAND packet_id payload port =
      { endpoint_allocated := true
        rendezvous_replies := [Reply.ok_port port]
        worker_replies := [Reply.ack packet_id, Reply.error_reply "formato_nao_suportado"]
        validated := false } := by
  rw [List.getD_eq_getElem _ _ (by rw [h2]; norm_num),
      List.getD_eq_getElem _ _ (by rw [h2]; norm_num)] at h3
  unfold rendezvous_dispatch command_phase
  simp [h1, h2, h3]

/-- Witness for C1 at the claim's own example command. -/
theorem handshake_unsupported_pair_witness :
    rendezvous_dispatch PKT_COMMAND 3 "CONVERT txt exe file.txt" 6000 =
      { endpoint_allocated := true
        rendezvous_replies := [Reply.ok_port 6000]
        worker_replies := [Reply.ack 3, Reply.error_reply "formato_nao_suportado"]
        validated := false } :=
  handshake_unsupported_pair 3 6000 "CONVERT txt exe file.txt"
    (by decide) (by decide) (by decide)

/-- Python `str.split("|")` on the character list of a metadata payload: split at every
`'|'`, keeping empty fields. -/
def split_on_pipe : List Char → List Char → List (List Char)
  | [], acc => [acc.reverse]
  | c :: cs, acc =>
    if c = '|' then acc.reverse :: split_on_pipe cs []
    else split_on_pipe cs (c :: acc)

/-- Helper for Python `int()`: no two adjacent underscores in a character run. -/
def no_adjacent_underscores : List Char → Bool
  | c1 :: c2 :: rest => !(c1 == '_' && c2 == '_') && no_adjacent_underscores (c2 :: rest)
  | _ => true

/-- Digit run as accepted by Python `int()` after the optional sign: nonempty, first
and last characters are digits, every character is a digit or an underscore, and no
two underscores are adjacent (so `"1_0"` parses but `"_1"`, `"1_"`, `"1__0"` raise). -/
def digit_run_ok (s : List Char) : Bool :=
  !s.isEmpty && s.all (fun c => c.isDigit || c == '_') &&
  (s.headD '_').isDigit && (s.getLastD '_').isDigit && no_adjacent_underscores s

/-- Numeric value of a digit run, underscores skipped. -/
def digit_run_val (s : List Char) : Nat :=
  (s.filter (fun c => c.isDigit)).foldl (fun n c => n * 10 + (c.toNat - 48)) 0

/-- Model of Python `int()` on a decimal string, restricted to ASCII (the metadata
payloads this protocol produces are ASCII): optional surrounding whitespace, then an
optional single `+` or `-` sign, then digits optionally separated by single
underscores — so `int(" 5")`, `int("+5")`, `int("-5")` and `int("1_0")` all succeed.
Anything else raises `ValueError`, modelled as `none`. -/
def py_int (s : List Char) : Option Int :=
  let t := ((s.dropWhile Char.isWhitespace).reverse.dropWhile Char.isWhitespace).reverse
  match t with
  | '+' :: rest => if digit_run_ok rest then some (digit_run_val rest : Int) else none
  | '-' :: rest => if digit_run_ok rest then some (-(digit_run_val rest : Int)) else none
  | rest => if digit_run_ok rest then some (digit_run_val rest : Int) else none

/-- Metadata parsing of `handle_client` (`server_udp.py:241-248`): split the decoded
payload on `"|"`, require exactly three fields, and convert the second and third with
`int()` (signed — the code never range-checks them). A wrong field count makes the
handler return; a field `int()` rejects makes it raise into the outer generic handler.
Either way the session ends with no Error packet, so both are modelled as `none`. -/
def parse_metadata (s : String) : Option (String × Int × Int) :=
  match split_on_pipe s.toList [] with
  | [fn, szs, tots] =>
    match py_int szs, py_int tots with
    | some sz, some tot => some (String.mk fn, sz, tot)
    | _, _ => none
  | _ => none

/-- How the worker leaves the metadata step: dead silently, or proceeding with the
parsed transfer descriptor. -/
inductive WorkerEnd where
  | silent_end
  | proceed (filename : String) (file_size total_data_packets : Int)
deriving DecidableEq

/-- Metadata-receive step of `handle_client` (`server_udp.py:231-248`), over the result
of `receive_with_ack` (header fields plus decoded payload; `none` is a timeout, whose
all-`None` tuple fails the `PKT_METADATA` comparison). The Ack is sent by
`receive_with_ack` before any validation. A packet of the wrong kind, or metadata with
a wrong field count or a field `int()` rejects, terminates the worker with no outbound
Error packet. -/
def metadata_phase (r : Option (Nat × Nat × Nat × String)) : WorkerEnd × List Reply :=
  match r with
  | none => (WorkerEnd.silent_end, [])
  | some (pkt_type, packet_id, _, payload) =>
    let replies := [Reply.ack packet_id]
    if pkt_type ≠ PKT_METADATA then (WorkerEnd.silent_end, replies)
    else
      match parse_metadata payload with
      | some (fn, sz, tot) => (WorkerEnd.proceed fn sz tot, replies)
      | none => (WorkerEnd.silent_end, replies)

/-- How the worker leaves the hash-wait step of `server_udp.py:277-286`: dead silently,
or proceeding with the received digest string. -/
inductive HashWaitEnd where
  | silent_end_h
  | proceed_h (received_hash : String)
deriving DecidableEq

/-- Hash-receive step of `handle_client` (`server_udp.py:277-286`), over the result of
`receive_with_ack` exactly as in the metadata step: a timeout or a packet whose kind is
not `PKT_HASH` makes the handler print and return — no Error packet is sent. -/
def hash_phase (r : Option (Nat × Nat × Nat × String)) : HashWaitEnd × List Reply :=
  match r with
  | none => (HashWaitEnd.silent_end_h, [])
  | some (pkt_type, packet_id, _, payload) =>
    let replies := [Reply.ack packet_id]
    if pkt_type ≠ PKT_HASH then (HashWaitEnd.silent_end_h, replies)
    else (HashWaitEnd.proceed_h payload, replies)

/-- Outcome of one guarded send in the result-sending phase. -/
inductive SendStepEnd where
  | aborted_silently
  | continued
deriving DecidableEq

/-- Abort pattern around every `send_with_ack` call of the result-sending phase
(`server_udp.py:351-353`, `365-367`, `373-375`): when `send_with_ack` exhausts its
retries and returns `False`, the handler prints and returns immediately — the reply
list shows that no Error packet is emitted on this path. -/
def send_step (expected : Nat) (events : List RecvEvent) : SendStepEnd × List Reply :=
  if (send_with_ack_srv expected MAX_RETRIES events).1 then (SendStepEnd.continued, [])
  else (SendStepEnd.aborted_silently, [])

/-- Conversion step of `handle_client` (`server_udp.py:317-337`): the conversion
itself is the external collaborator of the spec; `some out` models a successful
`convert_file` producing the converted bytes, `none` any exception it raises. On
failure exactly one Error packet with reason `erro_conversao` is sent and the handler
returns. -/
def conversion_step (result : Option (List Nat)) : Option (List Nat) × List Reply :=
  match result with
  | some out => (some out, [])
  | none => (none, [Reply.error_reply "erro_conversao"])

/-- Test whether a reply is an Error packet. -/
def is_error_reply : Reply → Bool
  | Reply.error_reply _ => true
  | _ => false

/-- Number of Error packets among a list of replies. -/
def error_count (rs : List Reply) : Nat :=
  (rs.filter is_error_reply).length

/-- Counterexample for C9 as stated: the claim says every post-handshake session
failure produces exactly one outbound Error packet; but a protocol-sequence failure —
a Data packet arriving where Metadata is required — terminates the worker having sent
zero Error packets (only the unconditional Ack). -/
theorem sequence_error_silent_cex :
    (metadata_phase (some (PKT_DATA, 0, 0, "x"))).1 = WorkerEnd.silent_end ∧
    error_count (metadata_phase (some (PKT_DATA, 0, 0, "x"))).2 = 0 := by
  constructor
  · decide
  · decide

lemma command_phase_error_count (t id : Nat) (p : String) :
    error_count (command_phase t id p).1 = if (command_phase t id p).2 then 0 else 1 := by
  simp only [command_phase]
  split_ifs <;> simp_all [error_count, is_error_reply]

lemma hash_check_error_count (rp : List (Nat × List Nat)) (tot sz : Nat) (rh : String) :
    error_count (hash_check_step rp tot sz rh).1
      = if (hash_check_step rp tot sz rh).2 then 0 else 1 := by
  simp only [hash_check_step]
  split_ifs <;> simp_all [error_count, is_error_reply]

/-- C9 (amended) — after the handshake, the failure paths of the worker split as
follows. Silent (zero outbound Error packets, failure only logged): a wrong packet
kind or a timeout where Metadata is expected; metadata with a wrong field count or a
field `int()` rejects; a wrong packet kind or a timeout where the Hash is expected;
and transmission exhaustion in the result-sending phase. Exactly one Error packet is
emitted precisely when command validation fails (handshake rejection), when the digest
check fails (`hash_invalido`), and when the conversion collaborator fails
(`erro_conversao`); each of those paths emits none on success. -/
theorem session_failure_policy
    (t1 id1 tot1 : Nat) (p1 q : String)
    (t2 id2 tot2 : Nat) (p2 : String)
    (expected : Nat) (events : List RecvEvent)
    (tc idc : Nat) (pc : String)
    (rp : List (Nat × List Nat)) (tot sz : Nat) (rh : String)
    (rc : Option (List Nat))
    (h1 : t1 ≠ PKT_METADATA)
    (hq : parse_metadata q = none)
    (h2 : t2 ≠ PKT_HASH)
    (hs : (send_with_ack_srv expected MAX_RETRIES events).1 = false) :
    metadata_phase (some (t1, id1, tot1, p1)) = (WorkerEnd.silent_end, [Reply.ack id1]) ∧
    metadata_phase none = (WorkerEnd.silent_end, []) ∧
    metadata_phase (some (PKT_METADATA, id1, tot1, q))
      = (WorkerEnd.silent_end, [Reply.ack id1]) ∧
    hash_phase (some (t2, id2, tot2, p2)) = (HashWaitEnd.silent_end_h, [Reply.ack id2]) ∧
    hash_phase none = (HashWaitEnd.silent_end_h, []) ∧
    send_step expected events = (SendStepEnd.aborted_silently, []) ∧
    error_count (command_phase tc idc pc).1
      = (if (command_phase tc idc pc).2 then 0 else 1) ∧
    error_count (hash_check_step rp tot sz rh).1
      = (if (hash_check_step rp tot sz rh).2 then 0 else 1) ∧
    error_count (conversion_step rc).2
      = (if (conversion_step rc).1.isSome then 0 else 1) := by
  refine ⟨?_, rfl, ?_, ?_, rfl, ?_, command_phase_error_count tc idc pc,
    hash_check_error_count rp tot sz rh, ?_⟩
  · simp [metadata_phase, h1]
  · simp [metadata_phase, hq]
  · simp [hash_phase, h2]
  · simp [send_step, hs]
  · cases rc <;> simp [conversion_step, error_count, is_error_reply]

/-- Witness for C9: a Data packet where Metadata is required, metadata whose size
field is not numeric, a Data packet where the Hash is required, five straight
timeouts exhausting the retry budget, an unsupported command, a mismatching digest,
and a failed conversion. -/
theorem session_failure_policy_witness :
    metadata_phase (some (PKT_DATA, 4, 0, "x")) = (WorkerEnd.silent_end, [Reply.ack 4]) ∧
    metadata_phase none = (WorkerEnd.silent_end, []) ∧
    metadata_phase (some (PKT_METADATA, 4, 0, "f|size|2"))
      = (WorkerEnd.silent_end, [Reply.ack 4]) ∧
    hash_phase (some (PKT_DATA, 9, 0, "y")) = (HashWaitEnd.silent_end_h, [Reply.ack 9]) ∧
    hash_phase none = (HashWaitEnd.silent_end_h, []) ∧
    send_step 0 (List.replicate MAX_RETRIES RecvEvent.timeout)
      = (SendStepEnd.aborted_silently, []) ∧
    error_count (command_phase PKT_COMMAND 1 "CONVERT txt exe a.txt").1
      = (if (command_phase PKT_COMMAND 1 "CONVERT txt exe a.txt").2 then 0 else 1) ∧
    error_count (hash_check_step [] 0 0 "deadbeef").1
      = (if (hash_check_step [] 0 0 "deadbeef").2 then 0 else 1) ∧
    error_count (conversion_step none).2
      = (if (conversion_step none).1.isSome then 0 else 1) :=
  session_failure_policy PKT_DATA 4 0 "x" "f|size|2" PKT_DATA 9 0 "y" 0
    (List.replicate MAX_RETRIES RecvEvent.timeout) PKT_COMMAND 1
    "CONVERT txt exe a.txt" [] 0 0 "deadbeef" none
    (by decide) (by decide) (by decide) (by decide)

end UDPConv
